import Mathlib

set_option autoImplicit false

namespace ConfigurationRestore

/-- A JSON value, the data model of the configuration records handled by
`configurationRestore.js`: records parsed from the input array and payloads
stored in the `core_store` collection are JSON values. -/
inductive Json where
  | null
  | bool (b : Bool)
  | num (n : Int)
  | str (s : String)
  | arr (elems : List Json)
  | obj (fields : List (String × Json))
deriving Repr

mutual

/-- Boolean equality of JSON values (structural). -/
def beqJson : Json → Json → Bool
  | Json.null, Json.null => true
  | Json.bool a, Json.bool b => a == b
  | Json.num a, Json.num b => a == b
  | Json.str a, Json.str b => a == b
  | Json.arr a, Json.arr b => beqJsonList a b
  | Json.obj a, Json.obj b => beqJsonFields a b
  | _, _ => false

/-- Boolean equality of lists of JSON values. -/
def beqJsonList : List Json → List Json → Bool
  | [], [] => true
  | a :: as, b :: bs => beqJson a b && beqJsonList as bs
  | _, _ => false

/-- Boolean equality of JSON object field lists. -/
def beqJsonFields : List (String × Json) → List (String × Json) → Bool
  | [], [] => true
  | (k, v) :: fs, (k', v') :: fs' => k == k' && beqJson v v' && beqJsonFields fs fs'
  | _, _ => false

end

/-- Field lookup in a JSON object's field list: JavaScript property read
`o[k]`, returning the first binding for `k` (JS objects bind each key once). -/
def getField : List (String × Json) → String → Option Json
  | [], _ => none
  | (k', v') :: fs, k => if k' = k then some v' else getField fs k

/-- Field write in a JSON object's field list: JavaScript property write
`o[k] = v`, replacing the binding in place when present, appending otherwise. -/
def setField : List (String × Json) → String → Json → List (String × Json)
  | [], k, v => [(k, v)]
  | (k', v') :: fs, k, v => if k' = k then (k, v) :: fs else (k', v') :: setField fs k v

mutual

/-- Embedding of lodash `baseMergeDeep`: how `_.merge` combines the existing
value `dst` and the incoming value `src` found under one key.  Following the
lodash source: an incoming array merges index-wise into an existing array and
otherwise replaces; an incoming plain object merges field-wise into an
existing plain object and otherwise replaces (when the existing value is an
array, real lodash grafts the object's numeric keys onto the array, which is
not JSON-representable in general; the embedding takes the incoming object);
any other incoming value is assigned outright. -/
def mergeJson (dst src : Json) : Json :=
  match dst, src with
  | Json.arr des, Json.arr ses => Json.arr (mergeElems des ses)
  | _, Json.arr ses => Json.arr ses
  | Json.obj dfs, Json.obj sfs => Json.obj (mergeFields dfs sfs)
  | _, Json.obj sfs => Json.obj sfs
  | _, s => s

/-- Embedding of lodash array merging: `_.merge` walks the indices of the
incoming array, merging each incoming element onto the existing element at
the same index; existing elements past the incoming length are preserved. -/
def mergeElems : List Json → List Json → List Json
  | des, [] => des
  | [], s :: ses => s :: mergeElems [] ses
  | d :: des, s :: ses => mergeJson d s :: mergeElems des ses

/-- Embedding of lodash object merging: `_.merge` walks the incoming fields
in order, merging each onto the current value of that field (the incoming
value itself when the field is absent), updating the accumulated object. -/
def mergeFields (dfs : List (String × Json)) : List (String × Json) → List (String × Json)
  | [] => dfs
  | (k, sv) :: sfs =>
    let nv := match getField dfs k with
      | some dv => mergeJson dv sv
      | none => sv
    mergeFields (setField dfs k nv) sfs

end

/-- Embedding of the top-level `_.merge(existingConf, conf)` call of the merge
merge importer.  When both operands are objects (the only case the importer
produces for well-formed store rows) lodash merges their fields; when both
are arrays it merges index-wise; a source without enumerable properties
leaves the destination unchanged, which the remaining cases approximate. -/
def lodashMerge (dst src : Json) : Json :=
  match dst, src with
  | Json.obj dfs, Json.obj sfs => Json.obj (mergeFields dfs sfs)
  | Json.arr des, Json.arr ses => Json.arr (mergeElems des ses)
  | d, _ => d

/-- The `key` identifier the importers read from a record: JavaScript
`conf.key`, which is the value of the `key` property when `conf` is an object
that has one, and `undefined` (modelled as `none`) otherwise. -/
def confKey : Json → Option Json
  | Json.obj fs => getField fs "key"
  | _ => none

/-- Boolean equality on optional JSON values, used to match a store entry's
`key` field against the filter `{ key: conf.key }`. -/
def optKeyEq : Option Json → Option Json → Bool
  | none, none => true
  | some a, some b => beqJson a b
  | _, _ => false

/-- The `core_store` collection: the list of persisted entry payloads, in
creation order. -/
abbrev Store : Type := List Json

/-- An entry matches the filter `{ key: k }` when its own `key` field equals
`k`. -/
def keyMatches (k : Option Json) (e : Json) : Bool :=
  optKeyEq (confKey e) k

/-- Embedding of `db.query('core_store').count({ key: k })`: the number of
entries matching the filter. -/
def countByKey : Store → Option Json → Nat
  | [], _ => 0
  | e :: s, k => (if keyMatches k e then 1 else 0) + countByKey s k

/-- Embedding of `db.query('core_store').find({ key: k })`: the first entry
matching the filter, or absent. -/
def findByKey : Store → Option Json → Option Json
  | [], _ => none
  | e :: s, k => if keyMatches k e then some e else findByKey s k

/-- Embedding of `db.query('core_store').create(conf)`: appends a new entry
holding payload `conf`. -/
def createEntry (s : Store) (conf : Json) : Store :=
  s ++ [conf]

/-- Embedding of `db.query('core_store').update({ key: k }, conf)`: overwrites
the payload of every entry matching the filter with `conf` (at most one under
the store's one-entry-per-key invariant). -/
def updateByKey : Store → Option Json → Json → Store
  | [], _, _ => []
  | e :: s, k, c => (if keyMatches k e then c else e) :: updateByKey s k c

/-- Embedding of `createReplaceImporter(db).import(conf)` (success path):
count the entries matching `conf.key`; update the full payload to `conf` when
one exists, create the entry otherwise. -/
def replaceImport (s : Store) (conf : Json) : Store :=
  if countByKey s (confKey conf) > 0 then updateByKey s (confKey conf) conf
  else createEntry s conf

/-- Embedding of `createMergeImporter(db).import(conf)` (success path): fetch
the entry matching `conf.key`; when found, update its payload to
`_.merge(existingConf, conf)`, otherwise create the entry with payload
`conf`. -/
def mergeImport (s : Store) (conf : Json) : Store :=
  match findByKey s (confKey conf) with
  | some existingConf => updateByKey s (confKey conf) (lodashMerge existingConf conf)
  | none => createEntry s conf

/-- Embedding of `createKeepImporter(db).import(conf)` (success path): count
the entries matching `conf.key`; when one exists do nothing, otherwise create
the entry with payload `conf`. -/
def keepImport (s : Store) (conf : Json) : Store :=
  if countByKey s (confKey conf) > 0 then s
  else createEntry s conf

/-- The three recognized import strategies. -/
inductive Strategy where
  | replace
  | merge
  | keep
deriving Repr, DecidableEq

/-- The errors the restore command throws before the import loop. -/
inductive RestoreError where
  | invalidInput (message : String)
  | unsupportedStrategy (strategyName : String)
deriving Repr, DecidableEq

/-- The message carried by each thrown `Error`, as built in the source. -/
def RestoreError.message : RestoreError → String
  | RestoreError.invalidInput m => m
  | RestoreError.unsupportedStrategy s =>
    "No importer available for strategy \"" ++ s ++ "\""

/-- Embedding of `createImporter(db, strategy)`: the `switch` maps the three
recognized names to their importers and throws on any other name. -/
def createImporter (strategy : String) : Except RestoreError Strategy :=
  if strategy = "replace" then Except.ok Strategy.replace
  else if strategy = "merge" then Except.ok Strategy.merge
  else if strategy = "keep" then Except.ok Strategy.keep
  else Except.error (RestoreError.unsupportedStrategy strategy)

/-- One `importer.import(config)` call on the success path, dispatched by
strategy. -/
def importStep (strat : Strategy) (s : Store) (conf : Json) : Store :=
  match strat with
  | Strategy.replace => replaceImport s conf
  | Strategy.merge => mergeImport s conf
  | Strategy.keep => keepImport s conf

/-- One `importer.import(config)` call, also counting the store operations it
performs (one read, plus one write unless the keep importer no-ops). -/
def importStepN (strat : Strategy) (s : Store) (conf : Json) : Store × Nat :=
  match strat with
  | Strategy.replace => (replaceImport s conf, 2)
  | Strategy.merge => (mergeImport s conf, 2)
  | Strategy.keep =>
    if countByKey s (confKey conf) > 0 then (s, 1) else (keepImport s conf, 2)

/-- Embedding of the batch loop that awaits one `import(config)` call per
record of `dataToImport` on the success path: records are imported strictly
sequentially, in input order. -/
def runBatch (strat : Strategy) : List Json → Store → Store
  | [], s => s
  | c :: cs, s => runBatch strat cs (importStep strat s c)

/-- The batch loop, also accumulating the number of `import` calls made and
the number of store operations performed. -/
def runBatchN (strat : Strategy) : List Json → Store → Store × Nat × Nat
  | [], s => (s, 0, 0)
  | c :: cs, s =>
    let (s1, ops) := importStepN strat s c
    let (s2, imports, storeOps) := runBatchN strat cs s1
    (s2, imports + 1, storeOps + ops)

/-- The batch loop over a possibly-failing import step: each step returns the
store state it left behind and, on failure, the error it threw.  A thrown
error aborts the loop at once (the `await` in the `for` loop propagates the
rejection), so later records are never imported and nothing is retried. -/
def runBatchT {ε : Type} (step : Store → Json → Store × Option ε) :
    List Json → Store → Store × Option ε
  | [], s => (s, none)
  | c :: cs, s =>
    match step s c with
    | (s1, some e) => (s1, some e)
    | (s1, none) => runBatchT step cs s1

/-- The individual store calls an importer makes, used to model a store
operation failing. -/
inductive StoreCall where
  | countCall
  | findCall
  | createCall
  | updateCall
deriving Repr, DecidableEq

/-- The replace importer with a failure oracle over its store calls: the
count query runs first, then the single write (update or create).  A failing
call throws before mutating anything, so the store is left as it was. -/
def replaceImportT (fails : StoreCall → Bool) (s : Store) (conf : Json) :
    Store × Option StoreCall :=
  if fails StoreCall.countCall then (s, some StoreCall.countCall)
  else if countByKey s (confKey conf) > 0 then
    if fails StoreCall.updateCall then (s, some StoreCall.updateCall)
    else (updateByKey s (confKey conf) conf, none)
  else
    if fails StoreCall.createCall then (s, some StoreCall.createCall)
    else (createEntry s conf, none)

/-- The merge importer with a failure oracle over its store calls. -/
def mergeImportT (fails : StoreCall → Bool) (s : Store) (conf : Json) :
    Store × Option StoreCall :=
  if fails StoreCall.findCall then (s, some StoreCall.findCall)
  else
    match findByKey s (confKey conf) with
    | some existingConf =>
      if fails StoreCall.updateCall then (s, some StoreCall.updateCall)
      else (updateByKey s (confKey conf) (lodashMerge existingConf conf), none)
    | none =>
      if fails StoreCall.createCall then (s, some StoreCall.createCall)
      else (createEntry s conf, none)

/-- The keep importer with a failure oracle over its store calls. -/
def keepImportT (fails : StoreCall → Bool) (s : Store) (conf : Json) :
    Store × Option StoreCall :=
  if fails StoreCall.countCall then (s, some StoreCall.countCall)
  else if countByKey s (confKey conf) > 0 then (s, none)
  else
    if fails StoreCall.createCall then (s, some StoreCall.createCall)
    else (createEntry s conf, none)

/-- One `import` call with a failure oracle, dispatched by strategy. -/
def importStepT (strat : Strategy) (fails : StoreCall → Bool) (s : Store)
    (conf : Json) : Store × Option StoreCall :=
  match strat with
  | Strategy.replace => replaceImportT fails s conf
  | Strategy.merge => mergeImportT fails s conf
  | Strategy.keep => keepImportT fails s conf

/-- Outcome of one restore run: the final store, the number of `import` calls
made, the number of store operations performed, and either the thrown error
or the reported count of imported entries. -/
structure RunResult where
  finalStore : Store
  importCalls : Nat
  storeCalls : Nat
  outcome : Except RestoreError Nat
deriving Repr

/-- Embedding of the exported restore command after input loading: `parsed`
is the outcome of `JSON.parse(input)` (the parse error message on failure).
In source order: a parse failure throws `Invalid input data: ... Expected a
valid JSON array.`; a non-array top level throws `Invalid input data.
Expected a valid JSON array.`; then `createImporter` may throw for an
unrecognized strategy; only then does the batch loop run, after which the
record count is reported. -/
def restoreRun (parsed : Except String Json) (strategy : String) (s0 : Store) :
    RunResult :=
  match parsed with
  | Except.error msg =>
    ⟨s0, 0, 0, Except.error (RestoreError.invalidInput
      ("Invalid input data: " ++ msg ++ ". Expected a valid JSON array."))⟩
  | Except.ok dataToImport =>
    match dataToImport with
    | Json.arr records =>
      match createImporter strategy with
      | Except.error e => ⟨s0, 0, 0, Except.error e⟩
      | Except.ok strat =>
        let (s1, imports, storeOps) := runBatchN strat records s0
        ⟨s1, imports, storeOps, Except.ok records.length⟩
    | _ =>
      ⟨s0, 0, 0, Except.error (RestoreError.invalidInput
        "Invalid input data. Expected a valid JSON array.")⟩

/-- A JSON value is primitive when it is neither an array nor an object. -/
def isPrim : Json → Bool
  | Json.arr _ => false
  | Json.obj _ => false
  | _ => true

/-- Tests whether a JSON value is an array. -/
def isArrJson : Json → Bool
  | Json.arr _ => true
  | _ => false

/-- Field lists with pairwise distinct keys: the shape `JSON.parse` produces,
since a JavaScript object binds each property name once. -/
def keysNodup (fs : List (String × Json)) : Prop :=
  (fs.map Prod.fst).Nodup

/-- Existing payload of the spec's nested-merge example:
`{key:"a", nested:{x:1, y:2}, other:"keep"}`. -/
def mergeExampleExisting : Json :=
  Json.obj [("key", Json.str "a"),
    ("nested", Json.obj [("x", Json.num 1), ("y", Json.num 2)]),
    ("other", Json.str "keep")]

/-- Incoming record of the spec's nested-merge example:
`{key:"a", nested:{y:99}}`. -/
def mergeExampleIncoming : Json :=
  Json.obj [("key", Json.str "a"), ("nested", Json.obj [("y", Json.num 99)])]

/-- Expected result of the spec's nested-merge example:
`{key:"a", nested:{x:1, y:99}, other:"keep"}`. -/
def mergeExampleResult : Json :=
  Json.obj [("key", Json.str "a"),
    ("nested", Json.obj [("x", Json.num 1), ("y", Json.num 99)]),
    ("other", Json.str "keep")]

/-- Existing payload of the spec's non-mapping-replacement example:
`{key:"a", value:1}`. -/
def wrapExampleExisting : Json :=
  Json.obj [("key", Json.str "a"), ("value", Json.num 1)]

/-- Incoming record of the spec's non-mapping-replacement example:
`{key:"a", value:{nested:true}}`. -/
def wrapExampleIncoming : Json :=
  Json.obj [("key", Json.str "a"), ("value", Json.obj [("nested", Json.bool true)])]

/-- Existing payload exercising array merging: `{key:"a", value:[1,2,3]}`. -/
def arrayExampleExisting : Json :=
  Json.obj [("key", Json.str "a"),
    ("value", Json.arr [Json.num 1, Json.num 2, Json.num 3])]

/-- Incoming record exercising array merging: `{key:"a", value:[9]}`. -/
def arrayExampleIncoming : Json :=
  Json.obj [("key", Json.str "a"), ("value", Json.arr [Json.num 9])]

/-- First record of the spec's sequential-duplicate example:
`{key:"a", v:1}`. -/
def dupRecord1 : Json :=
  Json.obj [("key", Json.str "a"), ("v", Json.num 1)]

/-- Second record of the spec's sequential-duplicate example:
`{key:"a", v:2}`. -/
def dupRecord2 : Json :=
  Json.obj [("key", Json.str "a"), ("v", Json.num 2)]

/-- A failure oracle under which exactly the store's update call fails. -/
def failUpdateOracle : StoreCall → Bool
  | StoreCall.updateCall => true
  | _ => false

/-- A record with no `key` field: `{value:7}`. -/
def keylessRecord : Json :=
  Json.obj [("value", Json.num 7)]

mutual

/-- Structural equality of JSON values is reflexive. -/
theorem beqJson_refl : ∀ a : Json, beqJson a a = true
  | Json.null => rfl
  | Json.bool b => by simp [beqJson]
  | Json.num n => by simp [beqJson]
  | Json.str s => by simp [beqJson]
  | Json.arr xs => by simp [beqJson, beqJsonList_refl xs]
  | Json.obj fs => by simp [beqJson, beqJsonFields_refl fs]

/-- Structural equality of JSON value lists is reflexive. -/
theorem beqJsonList_refl : ∀ xs : List Json, beqJsonList xs xs = true
  | [] => rfl
  | x :: xs => by simp [beqJsonList, beqJson_refl x, beqJsonList_refl xs]

/-- Structural equality of JSON field lists is reflexive. -/
theorem beqJsonFields_refl : ∀ fs : List (String × Json), beqJsonFields fs fs = true
  | [] => rfl
  | (k, v) :: fs => by simp [beqJsonFields, beqJson_refl v, beqJsonFields_refl fs]

end

/-- Optional-key equality is reflexive. -/
theorem optKeyEq_refl : ∀ k : Option Json, optKeyEq k k = true
  | none => rfl
  | some a => beqJson_refl a

/-- A record matches the filter built from its own key. -/
theorem keyMatches_self (c : Json) : keyMatches (confKey c) c = true :=
  optKeyEq_refl (confKey c)

/-- Reading back the field just written. -/
theorem getField_setField_self : ∀ (fs : List (String × Json)) (k : String) (v : Json),
    getField (setField fs k v) k = some v
  | [], k, v => by simp [setField, getField]
  | (k', v') :: fs, k, v => by
    by_cases h : k' = k
    · simp [setField, getField, h]
    · simp [setField, getField, h, getField_setField_self fs k v]

/-- Writing one field leaves the others unchanged. -/
theorem getField_setField_ne : ∀ (fs : List (String × Json)) (k k' : String) (v : Json),
    k ≠ k' → getField (setField fs k v) k' = getField fs k'
  | [], k, k', v, h => by simp [setField, getField, h]
  | (k1, v1) :: fs, k, k', v, h => by
    have hsym : ¬ k' = k := fun hh => h hh.symm
    by_cases h1 : k1 = k
    · simp [setField, getField, h1, h, hsym]
    · by_cases h2 : k1 = k'
      · simp [setField, getField, h1, h2, hsym]
      · simp [setField, getField, h1, h2, getField_setField_ne fs k k' v h]

/-- A key that is absent from every field is looked up as `none`. -/
theorem getField_eq_none_of_not_mem : ∀ (fs : List (String × Json)) (k : String),
    k ∉ fs.map Prod.fst → getField fs k = none
  | [], _, _ => rfl
  | (k', v') :: fs, k, h => by
    simp only [List.map, List.mem_cons, not_or] at h
    have hne : ¬ k' = k := fun hh => h.1 hh.symm
    simp [getField, hne, getField_eq_none_of_not_mem fs k h.2]

/-- A primitive incoming value is assigned outright by the merge. -/
theorem mergeJson_prim : ∀ (d s : Json), isPrim s = true → mergeJson d s = s := by
  intro d s h
  cases s <;> cases d <;> first | rfl | simp [isPrim] at h

/-- An incoming array replaces a non-array existing value wholesale. -/
theorem mergeJson_arr_replace : ∀ (d : Json) (ses : List Json),
    isArrJson d = false → mergeJson d (Json.arr ses) = Json.arr ses := by
  intro d ses h
  cases d <;> first | rfl | simp [isArrJson] at h

/-- Two arrays under one key are merged index-wise, not replaced. -/
theorem mergeJson_arr_arr (des ses : List Json) :
    mergeJson (Json.arr des) (Json.arr ses) = Json.arr (mergeElems des ses) := by
  simp [mergeJson]

/-- An incoming plain object replaces a primitive existing value wholesale. -/
theorem mergeJson_obj_replace : ∀ (d : Json) (sfs : List (String × Json)),
    isPrim d = true → mergeJson d (Json.obj sfs) = Json.obj sfs := by
  intro d sfs h
  cases d <;> first | rfl | simp [isPrim] at h

/-- Two objects under one key are merged field-by-field. -/
theorem mergeJson_obj_obj (dfs sfs : List (String × Json)) :
    mergeJson (Json.obj dfs) (Json.obj sfs) = Json.obj (mergeFields dfs sfs) := by
  simp [mergeJson]

/-- Fields absent from the incoming object are preserved unchanged. -/
theorem mergeFields_getField_of_absent :
    ∀ (sfs dfs : List (String × Json)) (k : String), getField sfs k = none →
      getField (mergeFields dfs sfs) k = getField dfs k
  | [], dfs, k, _ => by simp [mergeFields]
  | (k1, sv) :: sfs, dfs, k, h => by
    simp only [getField] at h
    by_cases hk : k1 = k
    · simp [hk] at h
    · rw [if_neg hk] at h
      rw [mergeFields]
      rw [mergeFields_getField_of_absent sfs _ k h]
      exact getField_setField_ne dfs k1 k _ hk

/-- A primitive incoming value wins at its key: after the merge the field
holds exactly the incoming value. -/
theorem mergeFields_getField_prim :
    ∀ (sfs dfs : List (String × Json)) (k : String) (v : Json),
      keysNodup sfs → getField sfs k = some v → isPrim v = true →
      getField (mergeFields dfs sfs) k = some v
  | [], _, _, _, _, h, _ => by simp [getField] at h
  | (k1, sv) :: sfs, dfs, k, v, hnd, h, hp => by
    have hnd' : keysNodup sfs := (List.nodup_cons.mp hnd).2
    simp only [getField] at h
    by_cases hk : k1 = k
    · rw [if_pos hk] at h
      injection h with hsv
      subst hsv
      have habs : getField sfs k = none := by
        refine getField_eq_none_of_not_mem sfs k ?_
        rw [← hk]
        exact (List.nodup_cons.mp hnd).1
      rw [mergeFields]
      rw [mergeFields_getField_of_absent sfs _ k habs]
      have hnv : (match getField dfs k1 with
          | some dv => mergeJson dv sv
          | none => sv) = sv := by
        cases getField dfs k1 with
        | none => rfl
        | some dv => exact mergeJson_prim dv sv hp
      rw [hk] at hnv ⊢
      rw [hnv]
      exact getField_setField_self dfs k sv
    · rw [if_neg hk] at h
      rw [mergeFields]
      exact mergeFields_getField_prim sfs _ k v hnd' h hp

/-- Appending an entry adds its match to the count. -/
theorem countByKey_append : ∀ (s : Store) (k : Option Json) (c : Json),
    countByKey (s ++ [c]) k = countByKey s k + (if keyMatches k c then 1 else 0)
  | [], k, c => by simp [countByKey]
  | e :: s, k, c => by
    rw [List.cons_append]
    simp only [countByKey]
    rw [countByKey_append s k c]
    omega

/-- A zero count means the lookup finds nothing. -/
theorem findByKey_eq_none_of_count_zero : ∀ (s : Store) (k : Option Json),
    countByKey s k = 0 → findByKey s k = none
  | [], _, _ => rfl
  | e :: s, k, h => by
    simp only [countByKey] at h
    by_cases hm : keyMatches k e
    · rw [if_pos hm] at h
      omega
    · rw [if_neg hm] at h
      simp only [findByKey, if_neg hm]
      exact findByKey_eq_none_of_count_zero s k (by omega)

/-- Looking up a key with no prior entry finds the appended matching entry. -/
theorem findByKey_append_of_count_zero : ∀ (s : Store) (k : Option Json) (c : Json),
    countByKey s k = 0 → keyMatches k c = true → findByKey (s ++ [c]) k = some c
  | [], k, c, _, hm => by simp [findByKey, hm]
  | e :: s, k, c, h, hm => by
    simp only [countByKey] at h
    by_cases hme : keyMatches k e
    · rw [if_pos hme] at h
      omega
    · rw [if_neg hme] at h
      simp only [List.cons_append, findByKey, if_neg hme]
      exact findByKey_append_of_count_zero s k c (by omega) hm

/-- Updating by key with a payload that itself matches the key preserves the
count of matching entries. -/
theorem countByKey_update : ∀ (s : Store) (k : Option Json) (c : Json),
    keyMatches k c = true → countByKey (updateByKey s k c) k = countByKey s k
  | [], _, _, _ => rfl
  | e :: s, k, c, hm => by
    simp only [updateByKey, countByKey]
    by_cases hme : keyMatches k e
    · simp [hme, hm, countByKey_update s k c hm]
    · simp [hme, countByKey_update s k c hm]

/-- When a matching entry exists, updating by key makes the lookup return the
new payload. -/
theorem findByKey_update : ∀ (s : Store) (k : Option Json) (c : Json),
    keyMatches k c = true → 0 < countByKey s k →
    findByKey (updateByKey s k c) k = some c
  | [], k, c, _, h => by simp [countByKey] at h
  | e :: s, k, c, hm, h => by
    simp only [countByKey] at h
    by_cases hme : keyMatches k e
    · simp [updateByKey, findByKey, hme, hm]
    · rw [if_neg hme] at h
      simp only [updateByKey, findByKey, if_neg hme]
      exact findByKey_update s k c hm (by omega)

/-- When every record before position `i` imports cleanly and the `i`-th
one fails, the batch loop stops there with that failure: records after
position `i` are never touched and the store is as the failing import left
it. -/
theorem runBatchT_append_failure {ε : Type} (step : Store → Json → Store × Option ε) :
    ∀ (pre : List Json) (c : Json) (post : List Json) (s0 s1 sF : Store) (e : ε),
      runBatchT step pre s0 = (s1, none) → step s1 c = (sF, some e) →
      runBatchT step (pre ++ c :: post) s0 = (sF, some e)
  | [], c, post, s0, s1, sF, e, hpre, hc => by
    simp only [runBatchT] at hpre
    injection hpre with hs _
    subst hs
    rw [List.nil_append]
    simp only [runBatchT, hc]
  | p :: pre, c, post, s0, s1, sF, e, hpre, hc => by
    rw [List.cons_append]
    simp only [runBatchT] at hpre ⊢
    rcases hstep : step s0 p with ⟨s2, oe⟩
    cases oe with
    | some e2 =>
      rw [hstep] at hpre
      simp at hpre
    | none =>
      rw [hstep] at hpre
      exact runBatchT_append_failure step pre c post s2 s1 sF e hpre hc

/-- With an oracle under which no store call fails, each fallible importer
returns no error and computes exactly the success-path import. -/
theorem importStepT_noFail (strat : Strategy) (s : Store) (c : Json) :
    importStepT strat (fun _ => false) s c = (importStep strat s c, none) := by
  cases strat
  · by_cases hc : countByKey s (confKey c) > 0 <;>
      simp [importStepT, replaceImportT, importStep, replaceImport, hc]
  · rcases hf : findByKey s (confKey c) with _ | ex <;>
      simp [importStepT, mergeImportT, importStep, mergeImport, hf]
  · by_cases hc : countByKey s (confKey c) > 0 <;>
      simp [importStepT, keepImportT, importStep, keepImport, hc]

/-- A failing replace import leaves the store exactly as it was. -/
theorem replaceImportT_failure_frame (fails : StoreCall → Bool) (s sF : Store)
    (c : Json) (e : StoreCall)
    (h : replaceImportT fails s c = (sF, some e)) : sF = s := by
  unfold replaceImportT at h
  by_cases h1 : fails StoreCall.countCall = true
  · rw [if_pos h1] at h
    injection h with ha hb
    exact ha.symm
  · rw [if_neg h1] at h
    by_cases h2 : countByKey s (confKey c) > 0
    · rw [if_pos h2] at h
      by_cases h3 : fails StoreCall.updateCall = true
      · rw [if_pos h3] at h
        injection h with ha hb
        exact ha.symm
      · rw [if_neg h3] at h
        injection h with ha hb
        cases hb
    · rw [if_neg h2] at h
      by_cases h3 : fails StoreCall.createCall = true
      · rw [if_pos h3] at h
        injection h with ha hb
        exact ha.symm
      · rw [if_neg h3] at h
        injection h with ha hb
        cases hb

/-- A failing merge import leaves the store exactly as it was. -/
theorem mergeImportT_failure_frame (fails : StoreCall → Bool) (s sF : Store)
    (c : Json) (e : StoreCall)
    (h : mergeImportT fails s c = (sF, some e)) : sF = s := by
  unfold mergeImportT at h
  by_cases h1 : fails StoreCall.findCall = true
  · rw [if_pos h1] at h
    injection h with ha hb
    exact ha.symm
  · rw [if_neg h1] at h
    rcases hf : findByKey s (confKey c) with _ | ex
    · simp only [hf] at h
      by_cases h3 : fails StoreCall.createCall = true
      · rw [if_pos h3] at h
        injection h with ha hb
        exact ha.symm
      · rw [if_neg h3] at h
        injection h with ha hb
        cases hb
    · simp only [hf] at h
      by_cases h3 : fails StoreCall.updateCall = true
      · rw [if_pos h3] at h
        injection h with ha hb
        exact ha.symm
      · rw [if_neg h3] at h
        injection h with ha hb
        cases hb

/-- A failing keep import leaves the store exactly as it was. -/
theorem keepImportT_failure_frame (fails : StoreCall → Bool) (s sF : Store)
    (c : Json) (e : StoreCall)
    (h : keepImportT fails s c = (sF, some e)) : sF = s := by
  unfold keepImportT at h
  by_cases h1 : fails StoreCall.countCall = true
  · rw [if_pos h1] at h
    injection h with ha hb
    exact ha.symm
  · rw [if_neg h1] at h
    by_cases h2 : countByKey s (confKey c) > 0
    · rw [if_pos h2] at h
      injection h with ha hb
      cases hb
    · rw [if_neg h2] at h
      by_cases h3 : fails StoreCall.createCall = true
      · rw [if_pos h3] at h
        injection h with ha hb
        exact ha.symm
      · rw [if_neg h3] at h
        injection h with ha hb
        cases hb

/-- When no entry matches the record's key, every strategy creates the
record as a new entry. -/
theorem importStep_absent (strat : Strategy) (s : Store) (c : Json)
    (h : countByKey s (confKey c) = 0) :
    importStep strat s c = s ++ [c] := by
  have hfind : findByKey s (confKey c) = none :=
    findByKey_eq_none_of_count_zero s _ h
  cases strat
  · show replaceImport s c = s ++ [c]
    unfold replaceImport
    rw [if_neg (by omega)]
    rfl
  · show mergeImport s c = s ++ [c]
    unfold mergeImport
    rw [hfind]
    rfl
  · show keepImport s c = s ++ [c]
    unfold keepImport
    rw [if_neg (by omega)]
    rfl

/-- A failing import leaves the store exactly as it was: every importer
performs its reads first and its single write last, so an import that throws
has written nothing. -/
theorem importStepT_failure_frame (strat : Strategy) (fails : StoreCall → Bool)
    (s sF : Store) (c : Json) (e : StoreCall)
    (h : importStepT strat fails s c = (sF, some e)) : sF = s := by
  cases strat
  · exact replaceImportT_failure_frame fails s sF c e h
  · exact mergeImportT_failure_frame fails s sF c e h
  · exact keepImportT_failure_frame fails s sF c e h

/-- C1: Replace strategy: for every record `conf` with key `k`, import first
queries the store count for key `k`; if an entry exists it updates that
entry's full payload to `conf` (full overwrite), otherwise it creates a new
entry with payload `conf`; afterwards (under the store's at-most-one-entry-
per-key invariant) exactly one entry exists for key `k` and its payload
equals `conf` verbatim, regardless of the prior entry's content. -/
theorem replace_strategy_overwrites (s : Store) (c : Json)
    (hinv : countByKey s (confKey c) ≤ 1) :
    replaceImport s c =
      (if countByKey s (confKey c) > 0 then updateByKey s (confKey c) c
       else createEntry s c) ∧
    countByKey (replaceImport s c) (confKey c) = 1 ∧
    findByKey (replaceImport s c) (confKey c) = some c := by
  refine ⟨rfl, ?_⟩
  unfold replaceImport
  by_cases hgt : countByKey s (confKey c) > 0
  · rw [if_pos hgt]
    constructor
    · rw [countByKey_update s _ c (keyMatches_self c)]
      omega
    · exact findByKey_update s _ c (keyMatches_self c) hgt
  · rw [if_neg hgt]
    have h0 : countByKey s (confKey c) = 0 := by omega
    constructor
    · show countByKey (s ++ [c]) (confKey c) = 1
      rw [countByKey_append s _ c, keyMatches_self c, h0]
      simp
    · exact findByKey_append_of_count_zero s _ c h0 (keyMatches_self c)

/-- Witness for C1: replacing the payload stored under key `"a"`. -/
theorem replace_strategy_overwrites_witness :
    countByKey [dupRecord1] (confKey dupRecord2) ≤ 1 ∧
    (countByKey (replaceImport [dupRecord1] dupRecord2) (confKey dupRecord2) = 1 ∧
     findByKey (replaceImport [dupRecord1] dupRecord2) (confKey dupRecord2)
       = some dupRecord2) :=
  ⟨by decide, (replace_strategy_overwrites [dupRecord1] dupRecord2 (by decide)).2⟩

/-- C4: Keep strategy: when the record's key already has an entry, import
performs no store write at all — the store is left unchanged (the one store
operation made is the count query) and the incoming record is discarded. -/
theorem keep_strategy_preserves (s : Store) (c : Json)
    (h : 0 < countByKey s (confKey c)) :
    keepImport s c = s ∧ importStepN Strategy.keep s c = (s, 1) := by
  constructor
  · unfold keepImport
    rw [if_pos h]
  · unfold importStepN
    rw [if_pos h]

/-- Witness for C4: importing a duplicate of key `"a"` under keep. -/
theorem keep_strategy_preserves_witness :
    0 < countByKey [dupRecord1] (confKey dupRecord2) ∧
    (keepImport [dupRecord1] dupRecord2 = [dupRecord1] ∧
     importStepN Strategy.keep [dupRecord1] dupRecord2 = ([dupRecord1], 1)) :=
  ⟨by decide, keep_strategy_preserves [dupRecord1] dupRecord2 (by decide)⟩

/-- C5: for every strategy and every record whose key is absent from the
store, import creates exactly one new entry whose payload equals the input
record (appended to the store), and creates no other entry. -/
theorem absent_key_creates (strat : Strategy) (s : Store) (c : Json)
    (h : countByKey s (confKey c) = 0) :
    importStep strat s c = s ++ [c] :=
  importStep_absent strat s c h

/-- Witness for C5: importing `{key:"a", v:1}` into the empty store under the
merge strategy creates exactly that entry. -/
theorem absent_key_creates_witness :
    countByKey [] (confKey dupRecord1) = 0 ∧
    importStep Strategy.merge [] dupRecord1 = [] ++ [dupRecord1] :=
  ⟨rfl, absent_key_creates Strategy.merge [] dupRecord1 rfl⟩

/-- C9: importing `[{key:"a",v:1},{key:"a",v:2}]` into a store with no entry
for key `"a"` leaves the stored payload equal to `{key:"a",v:2}` under the
replace strategy (last write wins) and `{key:"a",v:1}` under the keep
strategy (first write wins, the second import is a no-op). -/
theorem sequential_duplicate_resolution :
    runBatch Strategy.replace [dupRecord1, dupRecord2] [] = [dupRecord2] ∧
    runBatch Strategy.keep [dupRecord1, dupRecord2] [] = [dupRecord1] ∧
    findByKey (runBatch Strategy.replace [dupRecord1, dupRecord2] [])
      (confKey dupRecord1) = some dupRecord2 ∧
    findByKey (runBatch Strategy.keep [dupRecord1, dupRecord2] [])
      (confKey dupRecord1) = some dupRecord1 :=
  ⟨rfl, rfl, rfl, rfl⟩

/-- C2: Merge strategy: for an existing entry and incoming record sharing a
key, the payload written to the store is the deep merge of the existing
payload with the record; when both sides hold a plain mapping the merge
recurses field-by-field at every level, with incoming primitive values
winning at each leaf and every field absent from the incoming mapping
preserved unchanged; the spec's nested example computes as stated. -/
theorem merge_strategy_deep_merge :
    (∀ (s : Store) (c existingConf : Json),
        findByKey s (confKey c) = some existingConf →
        mergeImport s c = updateByKey s (confKey c) (lodashMerge existingConf c)) ∧
    (∀ dfs sfs : List (String × Json),
        lodashMerge (Json.obj dfs) (Json.obj sfs) = Json.obj (mergeFields dfs sfs) ∧
        mergeJson (Json.obj dfs) (Json.obj sfs) = Json.obj (mergeFields dfs sfs)) ∧
    (∀ (dfs sfs : List (String × Json)) (k : String),
        getField sfs k = none →
        getField (mergeFields dfs sfs) k = getField dfs k) ∧
    (∀ (dfs sfs : List (String × Json)) (k : String) (v : Json),
        keysNodup sfs → getField sfs k = some v → isPrim v = true →
        getField (mergeFields dfs sfs) k = some v) ∧
    lodashMerge mergeExampleExisting mergeExampleIncoming = mergeExampleResult := by
  refine ⟨?_, ?_, ?_, ?_, rfl⟩
  · intro s c existingConf h
    unfold mergeImport
    rw [h]
  · intro dfs sfs
    exact ⟨rfl, mergeJson_obj_obj dfs sfs⟩
  · intro dfs sfs k h
    exact mergeFields_getField_of_absent sfs dfs k h
  · intro dfs sfs k v hnd h hp
    exact mergeFields_getField_prim sfs dfs k v hnd h hp

/-- Witness for C2: the spec's nested example, field by field. -/
theorem merge_strategy_deep_merge_witness :
    findByKey [mergeExampleExisting] (confKey mergeExampleIncoming)
      = some mergeExampleExisting ∧
    mergeImport [mergeExampleExisting] mergeExampleIncoming
      = updateByKey [mergeExampleExisting] (confKey mergeExampleIncoming)
          (lodashMerge mergeExampleExisting mergeExampleIncoming) ∧
    getField (mergeFields [("x", Json.num 1), ("y", Json.num 2)] [("y", Json.num 99)])
      "x" = getField [("x", Json.num 1), ("y", Json.num 2)] "x" ∧
    getField (mergeFields [("x", Json.num 1), ("y", Json.num 2)] [("y", Json.num 99)])
      "y" = some (Json.num 99) :=
  ⟨rfl,
   merge_strategy_deep_merge.1 [mergeExampleExisting] mergeExampleIncoming
     mergeExampleExisting rfl,
   merge_strategy_deep_merge.2.2.1 [("x", Json.num 1), ("y", Json.num 2)]
     [("y", Json.num 99)] "x" rfl,
   merge_strategy_deep_merge.2.2.2.1 [("x", Json.num 1), ("y", Json.num 2)]
     [("y", Json.num 99)] "y" (Json.num 99) (by simp [keysNodup]) rfl rfl⟩

/-- C3 counterexample: the claim says array values are replaced wholesale,
but `_.merge` combines arrays element-by-element.  Merging the stored
`{key:"a", value:[1,2,3]}` with the incoming `{key:"a", value:[9]}` leaves
`value` equal to `[9,2,3]`, not the incoming `[9]`. -/
theorem merge_array_wholesale_counterexample :
    mergeImport [arrayExampleExisting] arrayExampleIncoming
      = [Json.obj [("key", Json.str "a"),
          ("value", Json.arr [Json.num 9, Json.num 2, Json.num 3])]] ∧
    Json.arr [Json.num 9, Json.num 2, Json.num 3] ≠ Json.arr [Json.num 9] :=
  ⟨rfl, by simp⟩

/-- C3 amended: for every field of the incoming record whose value is a
primitive, or an array merged against a non-array, the incoming value
replaces the existing value at that key outright; when the existing and
incoming values are both arrays they are combined element-by-element, with
existing elements past the incoming length preserved; the spec's
`{value:1}` versus `{value:{nested:true}}` example still replaces wholesale,
while the array example merges index-wise. -/
theorem merge_nonmapping_replacement :
    (∀ (dv sv : Json), isPrim sv = true → mergeJson dv sv = sv) ∧
    (∀ (dv : Json) (ses : List Json), isArrJson dv = false →
        mergeJson dv (Json.arr ses) = Json.arr ses) ∧
    (∀ (dv : Json) (sfs : List (String × Json)), isPrim dv = true →
        mergeJson dv (Json.obj sfs) = Json.obj sfs) ∧
    (∀ (des ses : List Json),
        mergeJson (Json.arr des) (Json.arr ses) = Json.arr (mergeElems des ses)) ∧
    lodashMerge wrapExampleExisting wrapExampleIncoming
      = Json.obj [("key", Json.str "a"),
          ("value", Json.obj [("nested", Json.bool true)])] ∧
    lodashMerge arrayExampleExisting arrayExampleIncoming
      = Json.obj [("key", Json.str "a"),
          ("value", Json.arr [Json.num 9, Json.num 2, Json.num 3])] :=
  ⟨mergeJson_prim, mergeJson_arr_replace, mergeJson_obj_replace, mergeJson_arr_arr,
   rfl, rfl⟩

/-- Witness for C3's amended theorem: a primitive incoming value and an
incoming array against a non-array both replace outright. -/
theorem merge_nonmapping_replacement_witness :
    isPrim (Json.num 7) = true ∧
    mergeJson (Json.str "x") (Json.num 7) = Json.num 7 ∧
    isArrJson (Json.num 1) = false ∧
    mergeJson (Json.num 1) (Json.arr [Json.bool true]) = Json.arr [Json.bool true] ∧
    mergeJson (Json.num 1) (Json.obj [("nested", Json.bool true)])
      = Json.obj [("nested", Json.bool true)] :=
  ⟨rfl, merge_nonmapping_replacement.1 (Json.str "x") (Json.num 7) rfl, rfl,
   merge_nonmapping_replacement.2.1 (Json.num 1) [Json.bool true] rfl,
   merge_nonmapping_replacement.2.2.1 (Json.num 1) [("nested", Json.bool true)] rfl⟩

/-- C6: for every strategy string other than `replace`, `merge`, `keep`, the
restore fails with the unsupported-strategy error naming the unrecognized
strategy, before any record of the input array is processed: zero import
calls and zero store operations, with the store untouched. -/
theorem unsupported_strategy_aborts (strategy : String) (records : List Json)
    (s0 : Store) (h1 : strategy ≠ "replace") (h2 : strategy ≠ "merge")
    (h3 : strategy ≠ "keep") :
    restoreRun (Except.ok (Json.arr records)) strategy s0 =
      ⟨s0, 0, 0, Except.error (RestoreError.unsupportedStrategy strategy)⟩ ∧
    (RestoreError.unsupportedStrategy strategy).message
      = "No importer available for strategy \"" ++ strategy ++ "\"" := by
  constructor
  · unfold restoreRun createImporter
    rw [if_neg h1, if_neg h2, if_neg h3]
  · rfl

/-- Witness for C6: the unknown strategy `"foo"`. -/
theorem unsupported_strategy_aborts_witness :
    ("foo" ≠ "replace" ∧ "foo" ≠ "merge" ∧ "foo" ≠ "keep") ∧
    (restoreRun (Except.ok (Json.arr [dupRecord1])) "foo" [] =
       ⟨[], 0, 0, Except.error (RestoreError.unsupportedStrategy "foo")⟩ ∧
     (RestoreError.unsupportedStrategy "foo").message
       = "No importer available for strategy \"" ++ "foo" ++ "\"") :=
  ⟨⟨by decide, by decide, by decide⟩,
   unsupported_strategy_aborts "foo" [dupRecord1] [] (by decide) (by decide)
     (by decide)⟩

/-- C7: a JSON parse failure, or a parsed top level that is not an array,
makes the restore fail with the invalid-input error (embedding the parse
error message in the malformed case) before any store access: zero import
calls and zero store operations, with the store untouched. -/
theorem invalid_input_aborts :
    (∀ (msg strategy : String) (s0 : Store),
        restoreRun (Except.error msg) strategy s0 =
          ⟨s0, 0, 0, Except.error (RestoreError.invalidInput
            ("Invalid input data: " ++ msg ++ ". Expected a valid JSON array."))⟩) ∧
    (∀ (j : Json) (strategy : String) (s0 : Store), isArrJson j = false →
        restoreRun (Except.ok j) strategy s0 =
          ⟨s0, 0, 0, Except.error (RestoreError.invalidInput
            "Invalid input data. Expected a valid JSON array.")⟩) := by
  constructor
  · intro msg strategy s0
    rfl
  · intro j strategy s0 h
    cases j <;> first | rfl | simp [isArrJson] at h

/-- Witness for C7: a parse failure and the valid-JSON non-array input
`"not an array"`. -/
theorem invalid_input_aborts_witness :
    restoreRun (Except.error "Unexpected token o in JSON at position 1")
      "replace" [] =
      ⟨[], 0, 0, Except.error (RestoreError.invalidInput
        ("Invalid input data: " ++ "Unexpected token o in JSON at position 1"
          ++ ". Expected a valid JSON array."))⟩ ∧
    isArrJson (Json.str "not an array") = false ∧
    restoreRun (Except.ok (Json.str "not an array")) "replace" [] =
      ⟨[], 0, 0, Except.error (RestoreError.invalidInput
        "Invalid input data. Expected a valid JSON array.")⟩ :=
  ⟨invalid_input_aborts.1 "Unexpected token o in JSON at position 1" "replace" [],
   rfl,
   invalid_input_aborts.2 (Json.str "not an array") "replace" [] rfl⟩

/-- C8: the batch driver processes records strictly sequentially in input
order; when the import of one record fails, no later record is processed and
the failure propagates at once with no retry; a failing import writes
nothing, so the store holds exactly what the earlier successfully completed
records produced; and with no store failures each step is exactly the
success-path import. -/
theorem batch_failure_halts :
    (∀ (ε : Type) (step : Store → Json → Store × Option ε)
        (pre : List Json) (c : Json) (post : List Json) (s0 s1 sF : Store) (e : ε),
        runBatchT step pre s0 = (s1, none) →
        step s1 c = (sF, some e) →
        runBatchT step (pre ++ c :: post) s0 = (sF, some e)) ∧
    (∀ (strat : Strategy) (fails : StoreCall → Bool) (s sF : Store) (c : Json)
        (e : StoreCall),
        importStepT strat fails s c = (sF, some e) → sF = s) ∧
    (∀ (strat : Strategy) (s : Store) (c : Json),
        importStepT strat (fun _ => false) s c = (importStep strat s c, none)) :=
  ⟨fun _ step => runBatchT_append_failure step,
   importStepT_failure_frame,
   importStepT_noFail⟩

/-- Witness for C8: with an oracle failing the update call, the batch over
`[{key:"a",v:1}, {key:"a",v:2}, {key:"a",v:1}]` under replace creates the
first record, fails updating the second, never reaches the third, and leaves
the store holding exactly the first record. -/
theorem batch_failure_halts_witness :
    runBatchT (importStepT Strategy.replace failUpdateOracle)
      ([dupRecord1] ++ dupRecord2 :: [dupRecord1]) []
      = ([dupRecord1], some StoreCall.updateCall) :=
  batch_failure_halts.1 StoreCall (importStepT Strategy.replace failUpdateOracle)
    [dupRecord1] dupRecord2 [dupRecord1] [] [dupRecord1] [dupRecord1]
    StoreCall.updateCall rfl rfl

/-- C10: no importer validates the incoming record: for every strategy a
record without a `key` field is never rejected with an error (with no store
failure the import returns normally), the store is queried with the filter
built from the record's absent key, a non-string `key` is passed through
unchanged, and when no matching entry is found the record is created
as-is. -/
theorem no_record_validation :
    (∀ (strat : Strategy) (s : Store) (c : Json), confKey c = none →
        importStepT strat (fun _ => false) s c = (importStep strat s c, none)) ∧
    (∀ (strat : Strategy) (s : Store) (c : Json), confKey c = none →
        countByKey s (confKey c) = 0 → importStep strat s c = createEntry s c) ∧
    confKey keylessRecord = none ∧
    confKey (Json.obj [("key", Json.num 3), ("v", Json.num 1)])
      = some (Json.num 3) := by
  refine ⟨?_, ?_, rfl, rfl⟩
  · intro strat s c _
    exact importStepT_noFail strat s c
  · intro strat s c _ h0
    exact importStep_absent strat s c h0

/-- Witness for C10: the keyless record `{value:7}` imports without error and
is created as-is in the empty store. -/
theorem no_record_validation_witness :
    confKey keylessRecord = none ∧
    importStepT Strategy.keep (fun _ => false) [] keylessRecord
      = (importStep Strategy.keep [] keylessRecord, none) ∧
    importStep Strategy.replace [] keylessRecord = createEntry [] keylessRecord :=
  ⟨rfl, no_record_validation.1 Strategy.keep [] keylessRecord rfl,
   no_record_validation.2.1 Strategy.replace [] keylessRecord rfl rfl⟩

end ConfigurationRestore
